import Mathlib

/-!
# Formal model of omni-trans-core: translation cache, batch scheduler, dispatch strategies

Shallow embedding of the Python sources `cache_manager.py`, `core.py`
(`save_all_changes`), `translation_manager.py`, `strategies.py` and
`runnables.py` of the repository `Ner-Kun/omni-trans-core`.

Modelling conventions:
* Python `dict[str, V]` is modelled as an association list with unique keys
  (`alookup` / `ainsert` / `aerase` implement `d.get`, `d[k] = v`, `del d[k]`).
* `time.monotonic()` values are rationals; a whole operation observes a single
  instant `now` (the scheduler is single-threaded and the few nested
  `time.monotonic()` re-reads inside one dispatch are treated as one instant).
* Python float arithmetic on the LiteLLM backoff multiplier is modelled over
  `ℚ`; every value reachable from `1.0` under `m + 1.0`, `m / 2.0`, `min`,
  `max` is a dyadic rational of tiny magnitude, on which IEEE-754 doubles are
  exact, so the rational model agrees with the float semantics.
* Qt signal emissions that the claims talk about (`batch_finished`,
  `batch_progress_updated`, `cache_dirty_state_changed`, cache writes) are
  recorded in explicit event logs inside the state; timer arming and purely
  graphical effects (progress-dialog label text, inspector updates,
  `item_translated`) are not modelled because no claim mentions them.
* `hashlib.sha256(text.encode('utf-8')).hexdigest()[:16]` is an external
  library call, kept as an explicit function parameter `hashHex16` of the
  cache operations; nothing in the claims depends on the concrete digest.
* Python truthiness tests (`if translated_text`, `if new_value`,
  `if cooldown_end`, `if key_to_use`) are translated exactly: a string is
  truthy iff non-empty, a float iff non-zero, `None` is falsy.
-/

namespace OmniTrans

/-! ## Association-list model of Python `dict` -/

/-- `d.get(key)` on a Python dict, modelled on an association list. -/
def alookup {α : Type} : List (String × α) → String → Option α
  | [], _ => none
  | (k, v) :: rest, key => if k = key then some v else alookup rest key

/-- `d[key] = val` on a Python dict: replace the existing binding or append. -/
def ainsert {α : Type} : List (String × α) → String → α → List (String × α)
  | [], key, val => [(key, val)]
  | (k, v) :: rest, key, val =>
      if k = key then (k, val) :: rest else (k, v) :: ainsert rest key val

/-- `del d[key]` on a Python dict (keys are unique, so removing the first
binding removes the only one). -/
def aerase {α : Type} : List (String × α) → String → List (String × α)
  | [], _ => []
  | (k, v) :: rest, key => if k = key then rest else (k, v) :: aerase rest key

theorem alookup_ainsert_self {α : Type} (m : List (String × α)) (k : String) (v : α) :
    alookup (ainsert m k v) k = some v := by
  induction m with
  | nil => simp [ainsert, alookup]
  | cons hd tl ih =>
      obtain ⟨k0, v0⟩ := hd
      by_cases h : k0 = k
      · simp [ainsert, alookup, h]
      · simp [ainsert, alookup, h, ih]

theorem alookup_ainsert_ne {α : Type} (m : List (String × α)) (k k' : String) (v : α)
    (h : k' ≠ k) : alookup (ainsert m k v) k' = alookup m k' := by
  induction m with
  | nil => simp [ainsert, alookup, Ne.symm h]
  | cons hd tl ih =>
      obtain ⟨k0, v0⟩ := hd
      by_cases h0 : k0 = k
      · subst h0
        simp [ainsert, alookup, Ne.symm h]
      · by_cases h1 : k0 = k'
        · simp [ainsert, alookup, h0, h1, h]
        · simp [ainsert, alookup, h0, h1, h, ih]

/-! ## `cache_manager.py` — `CacheManager` -/

/-- State of `CacheManager`: the in-memory map `self.cache`, the flag
`self._is_dirty`, and the log of `cache_dirty_state_changed` emissions. -/
structure CacheMgr where
  cache : List (String × String)
  isDirty : Bool
  dirtySignals : List Bool
deriving DecidableEq, Repr

/-- `set_dirty_flag` (`cache_manager.py:29-32`): mutate and emit only when the
value actually changes. -/
def setDirtyFlag (st : CacheMgr) (dirty : Bool) : CacheMgr :=
  if st.isDirty ≠ dirty then
    { st with isDirty := dirty, dirtySignals := st.dirtySignals ++ [dirty] }
  else st

/-- Python `str.strip()` (no arguments): remove leading and trailing
whitespace.  `Char.isWhitespace` covers the ASCII whitespace characters;
Python additionally strips some Unicode whitespace, which no claim
depends on. -/
def pyStrip (s : String) : String :=
  String.mk
    (((s.data.dropWhile Char.isWhitespace).reverse.dropWhile Char.isWhitespace).reverse)

/-- `_generate_cache_key` (`cache_manager.py:22-24`).  `hashHex16` stands for
the external call `hashlib.sha256(s.encode('utf-8')).hexdigest()[:16]`;
`pyStrip` models Python `str.strip()`. -/
def generateCacheKey (hashHex16 : String → String)
    (sourceText sourceLang targetLang : String) : String :=
  sourceLang ++ "_" ++ targetLang ++ "_" ++ hashHex16 (pyStrip sourceText)

/-- `get_from_cache` (`cache_manager.py:64-66`). -/
def getFromCache (hashHex16 : String → String) (st : CacheMgr)
    (sourceText sourceLang targetLang : String) : Option String :=
  alookup st.cache (generateCacheKey hashHex16 sourceText sourceLang targetLang)

/-- `new_value = translated_text.strip() if translated_text else None`
(`cache_manager.py:71`): Python truthiness of the *untrimmed* string. -/
def newValueOf (translatedText : String) : Option String :=
  if translatedText ≠ "" then some (pyStrip translatedText) else none

/-- Python truthiness of `new_value : str | None` — `None` and `""` are falsy. -/
def pyTruthyStrOpt : Option String → Bool
  | none => false
  | some s => s ≠ ""

/-- `update_cache` (`cache_manager.py:68-78`): `key`, `current_value` and
`new_value` of the source are written out in place; if the computed new value
equals the current one the call returns early, otherwise it inserts (truthy
new value) or deletes (key present) and raises the dirty flag. -/
def updateCache (hashHex16 : String → String) (st : CacheMgr)
    (sourceText translatedText sourceLang targetLang : String) : CacheMgr :=
  if alookup st.cache (generateCacheKey hashHex16 sourceText sourceLang targetLang)
      = newValueOf translatedText then st
  else
    setDirtyFlag
      (if pyTruthyStrOpt (newValueOf translatedText) then
        { st with cache :=
            (ainsert st.cache
              (generateCacheKey hashHex16 sourceText sourceLang targetLang)
              ((newValueOf translatedText).getD "")) }
      else if (alookup st.cache
          (generateCacheKey hashHex16 sourceText sourceLang targetLang)).isSome then
        { st with cache :=
            (aerase st.cache
              (generateCacheKey hashHex16 sourceText sourceLang targetLang)) }
      else st)
      true

/-- `save_cache` (`cache_manager.py:51-62`): writes the map to disk (a file
effect outside the modelled state, whose success is `writeOk`) and catches
every exception internally — it never touches `self.cache` or `self._is_dirty`
on either outcome. -/
def saveCache (_writeOk : Bool) (st : CacheMgr) : CacheMgr :=
  st

/-- `load_cache` (`cache_manager.py:34-49`): replaces the map with the parsed
file contents, or with the empty map when the path is missing or unreadable;
the dirty flag is not touched. -/
def loadCache (loaded : Option (List (String × String))) (st : CacheMgr) : CacheMgr :=
  { st with cache := loaded.getD [] }

/-- `clear_cache` (`cache_manager.py:80-88`): empties the map (and deletes the
backing file, outside the modelled state); the dirty flag is not touched. -/
def clearCache (st : CacheMgr) : CacheMgr :=
  { st with cache := [] }

/-- `CoreApp.save_all_changes` (`core.py:243-271`), restricted to its effect on
the cache manager.  `is_cache_dirty` is captured before saving.  `save_cache`
swallows its own exceptions, so the subsequent `set_dirty_flag(False)` runs
even when the cache file write failed; only an exception from
`data_handler.save()` (raised only when `dataDirty`) skips the flag clearing. -/
def saveAllChanges (cacheWriteOk dataSaveOk dataDirty : Bool) (st : CacheMgr) : CacheMgr :=
  let isCacheDirty := st.isDirty
  if dataDirty = false ∧ isCacheDirty = false then st
  else
    let st1 := if isCacheDirty then saveCache cacheWriteOk st else st
    if dataDirty ∧ dataSaveOk = false then st1
    else if isCacheDirty then setDirtyFlag st1 false else st1

/-- The operations of the program that touch the cache manager's state.
`get` is read-only; `setDirtyFlag` is a method of the class but within the
repository it is invoked on the cache manager only by `update_cache` and by
`save_all_changes` (`core.py:271`), so it is not an operation of its own. -/
inductive CacheOp where
  | get (hashHex16 : String → String) (sourceText sourceLang targetLang : String)
  | update (hashHex16 : String → String)
      (sourceText translatedText sourceLang targetLang : String)
  | load (loaded : Option (List (String × String)))
  | save (writeOk : Bool)
  | clear
  | saveAll (cacheWriteOk dataSaveOk dataDirty : Bool)

/-- State transition of one cache operation. -/
def applyCacheOp : CacheOp → CacheMgr → CacheMgr
  | .get _ _ _ _, st => st
  | .update h s t sl tl, st => updateCache h st s t sl tl
  | .load loaded, st => loadCache loaded st
  | .save ok, st => saveCache ok st
  | .clear, st => clearCache st
  | .saveAll cw dw dd, st => saveAllChanges cw dw dd st

/-- `setDirtyFlag` never touches the map. -/
theorem setDirtyFlag_cache (st : CacheMgr) (b : Bool) :
    (setDirtyFlag st b).cache = st.cache := by
  unfold setDirtyFlag
  split <;> rfl

/-- After `setDirtyFlag st b` the flag is `b` (it either changes to `b` or
already was `b`). -/
theorem setDirtyFlag_isDirty (st : CacheMgr) (b : Bool) :
    (setDirtyFlag st b).isDirty = b := by
  unfold setDirtyFlag
  by_cases h : st.isDirty = b
  · simp [h]
  · simp [h]

/-- `update_cache` never lowers the dirty flag. -/
theorem updateCache_isDirty_true (hashHex16 : String → String) (st : CacheMgr)
    (s t sl tl : String) (hd : st.isDirty = true) :
    (updateCache hashHex16 st s t sl tl).isDirty = true := by
  unfold updateCache
  split
  · exact hd
  · exact setDirtyFlag_isDirty _ _

/-- A concrete stand-in for the `hashHex16` parameter, used only to
instantiate counterexamples and witnesses at explicit inputs. -/
def hConst : String → String := fun _ => "h"

/-! ### Claim C3 -/

/-- Claim C3, counterexample: `translated_text = " "` is a non-empty string,
yet after `update_cache("a", " ", "en", "fr")` on an empty cache,
`get_from_cache("a", "en", "fr")` returns `none`, not the stored trimmed
value `some ""` — the code computes `new_value = ""`, which is falsy, so
nothing is stored.  This refutes the claim as stated for all non-empty
`translated_text`. -/
theorem c3_counterexample :
    (" " : String) ≠ "" ∧
    getFromCache hConst
      (updateCache hConst ⟨[], false, []⟩ "a" " " "en" "fr") "a" "en" "fr" = none ∧
    (updateCache hConst ⟨[], false, []⟩ "a" " " "en" "fr").cache = [] := by
  refine ⟨by decide, ?_, ?_⟩ <;> rfl

/-- Claim C3 (amended): for `translated_text` whose *trimmed* form is
non-empty, `update_cache` then `get_from_cache` with the same text and
languages returns the trimmed translation; the cache key is exactly
`source_lang ++ "_" ++ target_lang ++ "_"` followed by the 16-hex-digit
digest of the whitespace-trimmed source text, so two source texts that trim
to the same string map to the same key. -/
theorem c3_cache_roundtrip_and_key (hashHex16 : String → String) (st : CacheMgr)
    (s t sl tl : String) (ht : pyStrip t ≠ "") :
    getFromCache hashHex16 (updateCache hashHex16 st s t sl tl) s sl tl
        = some (pyStrip t) ∧
    generateCacheKey hashHex16 s sl tl
        = sl ++ "_" ++ tl ++ "_" ++ hashHex16 (pyStrip s) ∧
    (∀ s2, pyStrip s = pyStrip s2 →
        generateCacheKey hashHex16 s sl tl = generateCacheKey hashHex16 s2 sl tl) := by
  have htne : t ≠ "" := by
    intro h0
    apply ht
    rw [h0]
    rfl
  have hnew : newValueOf t = some (pyStrip t) := by simp [newValueOf, htne]
  refine ⟨?_, rfl, ?_⟩
  · by_cases hcur :
        alookup st.cache (generateCacheKey hashHex16 s sl tl) = some (pyStrip t)
    · simp [updateCache, getFromCache, hnew, hcur]
    · simp [updateCache, getFromCache, hnew, hcur, pyTruthyStrOpt, ht,
        setDirtyFlag_cache, alookup_ainsert_self]
  · intro s2 h2
    unfold generateCacheKey
    rw [h2]

/-- Witness for C3 at concrete inputs. -/
theorem c3_cache_roundtrip_and_key_witness :
    pyStrip " bonjour " ≠ "" ∧
    (getFromCache hConst
        (updateCache hConst ⟨[], false, []⟩ "hello" " bonjour " "en" "fr")
        "hello" "en" "fr" = some (pyStrip " bonjour ") ∧
      generateCacheKey hConst "hello" "en" "fr"
          = "en" ++ "_" ++ "fr" ++ "_" ++ hConst (pyStrip "hello") ∧
      (∀ s2, pyStrip "hello" = pyStrip s2 →
        generateCacheKey hConst "hello" "en" "fr" = generateCacheKey hConst s2 "en" "fr")) :=
  ⟨by decide, c3_cache_roundtrip_and_key hConst ⟨[], false, []⟩ "hello" " bonjour "
      "en" "fr" (by decide)⟩

/-! ### Claim C4 -/

/-- Claim C4, counterexample: with an empty cache and the dirty flag `false`,
calling `update_cache("a", " ", "en", "fr")` twice leaves the map unchanged on
both calls (the resulting association of the derived key — absence — equals
the current one), yet the first call already raises the dirty flag and it is
still `true` after the second call: the code compares `new_value = ""` against
`current_value = None`, finds them different, and signals dirty. -/
theorem c4_counterexample :
    (updateCache hConst ⟨[], false, []⟩ "a" " " "en" "fr").cache = [] ∧
    (updateCache hConst (updateCache hConst ⟨[], false, []⟩ "a" " " "en" "fr")
        "a" " " "en" "fr").cache = [] ∧
    (updateCache hConst (updateCache hConst ⟨[], false, []⟩ "a" " " "en" "fr")
        "a" " " "en" "fr").isDirty = true := by
  refine ⟨?_, ?_, ?_⟩ <;> rfl

/-- Claim C4 (amended): `update_cache` is a no-op on both the map and the
dirty flag exactly when the *computed* new value (`some (trim t)` for a
non-empty string `t`, `none` otherwise) equals the value currently associated
with the derived key; calling it twice with such an identical computed value
leaves the flag false if it was false before.  The amendment forced by the
counterexample: a whitespace-only non-empty `translated_text` on an absent key
computes `some ""`, which differs from the key's absence (`None`), so that
call leaves the map unchanged but still raises the dirty flag. -/
theorem c4_update_noop (hashHex16 : String → String) (st : CacheMgr)
    (s t sl tl : String) :
    (newValueOf t = alookup st.cache (generateCacheKey hashHex16 s sl tl) →
        updateCache hashHex16 st s t sl tl = st) ∧
    (t ≠ "" → pyStrip t = "" →
      alookup st.cache (generateCacheKey hashHex16 s sl tl) = none →
        (updateCache hashHex16 st s t sl tl).cache = st.cache ∧
        (updateCache hashHex16 st s t sl tl).isDirty = true) := by
  constructor
  · intro h
    unfold updateCache
    simp [h.symm]
  · intro ht htr hab
    have hnew : newValueOf t = some (pyStrip t) := by simp [newValueOf, ht]
    have hcur : ¬ alookup st.cache (generateCacheKey hashHex16 s sl tl)
        = newValueOf t := by
      rw [hnew, hab]
      exact fun h0 => Option.noConfusion h0
    unfold updateCache
    simp only [if_neg hcur]
    have htruthy : pyTruthyStrOpt (newValueOf t) = false := by
      rw [hnew, htr]
      simp [pyTruthyStrOpt]
    rw [htruthy]
    simp [hab, setDirtyFlag_cache, setDirtyFlag_isDirty]

/-- Witness for C4 at concrete inputs: a genuinely identical resulting value
(no-op case) and the whitespace-only case. -/
theorem c4_update_noop_witness :
    (newValueOf "v"
        = alookup [("en_fr_h", "v")] (generateCacheKey hConst "a" "en" "fr") ∧
      updateCache hConst ⟨[("en_fr_h", "v")], false, []⟩ "a" "v" "en" "fr"
        = ⟨[("en_fr_h", "v")], false, []⟩) ∧
    ((updateCache hConst ⟨[], false, []⟩ "a" " " "en" "fr").cache = [] ∧
      (updateCache hConst ⟨[], false, []⟩ "a" " " "en" "fr").isDirty = true) :=
  ⟨⟨by decide, (c4_update_noop hConst ⟨[("en_fr_h", "v")], false, []⟩
      "a" "v" "en" "fr").1 (by decide)⟩,
    (c4_update_noop hConst ⟨[], false, []⟩ "a" " " "en" "fr").2
      (by decide) (by decide) (by decide)⟩

/-! ### Claim C5 -/

/-- Claim C5, counterexample: with a dirty cache, running the
`save_all_changes` persist flow while the cache file write *fails*
(`cacheWriteOk = false`) still clears the dirty flag, because `save_cache`
catches its own exception and the flow then calls `set_dirty_flag(False)`
unconditionally — refuting "when persisting fails the flag stays true". -/
theorem c5_counterexample :
    (⟨[("k", "v")], true, []⟩ : CacheMgr).isDirty = true ∧
    (saveAllChanges false true false ⟨[("k", "v")], true, []⟩).isDirty = false := by
  exact ⟨rfl, rfl⟩

/-- Claim C5 (amended): among the cache-touching operations of the program,
`update_cache` is the only one that can transition the dirty flag from false
to true, and the `save_all_changes` persist flow is the only one that can
transition it from true to false — `save_cache` itself never touches the map
or the flag (in particular, on a failed write both are left unchanged *by
`save_cache`*); but because `save_cache` swallows its exceptions, the
enclosing `save_all_changes` still clears the flag even when the write
failed. -/
theorem c5_dirty_flag_paths (op : CacheOp) (st : CacheMgr) :
    (st.isDirty = false → (applyCacheOp op st).isDirty = true →
        ∃ h s t sl tl, op = CacheOp.update h s t sl tl) ∧
    (st.isDirty = true → (applyCacheOp op st).isDirty = false →
        ∃ cw dw dd, op = CacheOp.saveAll cw dw dd) ∧
    (∀ wk, saveCache wk st = st) ∧
    (∀ cw dd, st.isDirty = true → (saveAllChanges cw true dd st).isDirty = false) := by
  refine ⟨?_, ?_, fun _ => rfl, ?_⟩
  · intro h0 h1
    cases op with
    | update h s t sl tl => exact ⟨h, s, t, sl, tl, rfl⟩
    | get h s sl tl =>
        rw [show applyCacheOp (.get h s sl tl) st = st from rfl, h0] at h1
        cases h1
    | load loaded =>
        rw [show (applyCacheOp (.load loaded) st).isDirty = st.isDirty from rfl,
          h0] at h1
        cases h1
    | save ok =>
        rw [show (applyCacheOp (.save ok) st).isDirty = st.isDirty from rfl,
          h0] at h1
        cases h1
    | clear =>
        rw [show (applyCacheOp .clear st).isDirty = st.isDirty from rfl, h0] at h1
        cases h1
    | saveAll cw dw dd =>
        have hs : applyCacheOp (.saveAll cw dw dd) st = st := by
          simp [applyCacheOp, saveAllChanges, saveCache, h0]
        rw [hs, h0] at h1
        cases h1
  · intro h0 h1
    cases op with
    | saveAll cw dw dd => exact ⟨cw, dw, dd, rfl⟩
    | update h s t sl tl =>
        rw [show applyCacheOp (.update h s t sl tl) st
              = updateCache h st s t sl tl from rfl,
          updateCache_isDirty_true h st s t sl tl h0] at h1
        cases h1
    | get h s sl tl =>
        rw [show applyCacheOp (.get h s sl tl) st = st from rfl, h0] at h1
        cases h1
    | load loaded =>
        rw [show (applyCacheOp (.load loaded) st).isDirty = st.isDirty from rfl,
          h0] at h1
        cases h1
    | save ok =>
        rw [show (applyCacheOp (.save ok) st).isDirty = st.isDirty from rfl,
          h0] at h1
        cases h1
    | clear =>
        rw [show (applyCacheOp .clear st).isDirty = st.isDirty from rfl, h0] at h1
        cases h1
  · intro cw dd h0
    simp [saveAllChanges, saveCache, h0, setDirtyFlag_isDirty]

/-- Witness for C5 at concrete inputs. -/
theorem c5_dirty_flag_paths_witness :
    (⟨[("k", "v")], true, []⟩ : CacheMgr).isDirty = true ∧
    saveCache false ⟨[("k", "v")], true, []⟩ = ⟨[("k", "v")], true, []⟩ ∧
    (saveAllChanges false true false ⟨[("k", "v")], true, []⟩).isDirty = false :=
  ⟨rfl, (c5_dirty_flag_paths CacheOp.clear ⟨[("k", "v")], true, []⟩).2.2.1 false,
    (c5_dirty_flag_paths CacheOp.clear ⟨[("k", "v")], true, []⟩).2.2.2 false false rfl⟩

/-! ## `translation_manager.py` — `TranslationManager` (the batch scheduler) -/

/-- `State` (`translation_manager.py:23-27`). -/
inductive SchedState where
  | idle
  | running
  | canceling
  | stopped
deriving DecidableEq, Repr

/-- The parts of a `JobData` record that the modelled scheduler operations
read: the item id, the source text and the language pair (used for the cache
write on completion).  All other fields are only passed through to the
runnables. -/
structure Job where
  id : String
  sourceText : String
  sourceLang : String
  targetLang : String
deriving DecidableEq, Repr

/-- Classification of the exception object delivered to `_handle_job_failed`.
The runnables emit the *original* exception object:
`CustomJobRunnable` re-emits `litellm.RateLimitError` / `litellm.Timeout`
instances, while `GeminiJobRunnable` emits `google.api_core.ResourceExhausted`
or `google.genai.errors.ClientError` instances for quota errors (carrying
"429" / "RESOURCE_EXHAUSTED" in their message) — the Google exception
hierarchy is disjoint from litellm's, so those are never `isinstance` of the
litellm classes. -/
inductive ErrClass where
  | litellmRateLimit
  | litellmTimeout
  | geminiQuota
  | geminiServer
  | generic
deriving DecidableEq, Repr

/-- `is_retriable = litellm_exceptions and isinstance(exception_obj,
(litellm_exceptions.RateLimitError, litellm_exceptions.Timeout))`
(`translation_manager.py:312-315`), assuming the litellm import succeeded. -/
def isRetriable : ErrClass → Bool
  | .litellmRateLimit => true
  | .litellmTimeout => true
  | _ => false

/-- Scheduler state: the batch state machine, queue and counters of
`TranslationManager`, plus logs of the externally observable emissions the
claims mention.  `active` is an `ℤ` because the Python counter is a plain
`int` that the code can drive below zero. -/
structure Sched where
  state : SchedState
  pending : List Job
  active : ℤ
  total : ℕ
  completed : ℕ
  finishedEvents : List String
  progressEvents : List (ℕ × ℕ)
  cacheWrites : List (Job × String)
deriving DecidableEq, Repr

/-- `reset_batch_state` (`translation_manager.py:134-145`), restricted to the
scheduler fields (strategy resets are modelled with the strategies). -/
def resetBatchState (st : Sched) : Sched :=
  { st with state := .idle, active := 0, total := 0, completed := 0, pending := [] }

/-- `_finalize_batch` (`translation_manager.py:214-219`): no-op when already
IDLE, otherwise emit `batch_finished(reason)` and reset. -/
def finalizeBatch (reason : String) (st : Sched) : Sched :=
  if st.state = .idle then st
  else resetBatchState { st with finishedEvents := st.finishedEvents ++ [reason] }

/-- `_handle_job_completed` (`translation_manager.py:221-285`): guard on
IDLE/STOPPED, decrement active, increment completed, write the translation to
the cache, emit progress, then finalize or keep draining depending on the
state.  (Strategy `on_job_completed` callbacks, the `item_translated` signal,
thinking-failure bookkeeping and timer arming touch no modelled field.) -/
def handleJobCompleted (job : Job) (translation : String) (st : Sched) : Sched :=
  if st.state = .idle ∨ st.state = .stopped then st
  else
    let st2 : Sched :=
      { st with
        active := st.active - 1
        completed := st.completed + 1
        cacheWrites := st.cacheWrites ++ [(job, translation)]
        progressEvents := st.progressEvents ++ [(st.completed + 1, st.total)] }
    if st2.state = .running then
      if st2.pending ≠ [] then st2
      else if st2.active = 0 then finalizeBatch "completed" st2
      else st2
    else if st2.state = .canceling then
      if st2.active = 0 then finalizeBatch "cancelled" st2 else st2
    else st2

/-- `_handle_job_failed` (`translation_manager.py:287-333`): guard on
IDLE/STOPPED, decrement active, notify the strategy (modelled separately),
then either re-queue (RUNNING and litellm rate-limit/timeout instance) or
count the job as terminal and emit progress; finalize rules mirror
completion. -/
def handleJobFailed (job : Job) (err : ErrClass) (st : Sched) : Sched :=
  if st.state = .idle ∨ st.state = .stopped then st
  else
    let st1 : Sched := { st with active := st.active - 1 }
    let st2 : Sched :=
      if st1.state = .running ∧ isRetriable err then
        { st1 with pending := st1.pending ++ [job] }
      else
        { st1 with
          completed := st1.completed + 1
          progressEvents := st1.progressEvents ++ [(st1.completed + 1, st1.total)] }
    if st2.state = .running then
      if st2.pending = [] ∧ st2.active = 0 then
        finalizeBatch "completed with errors" st2
      else st2
    else if st2.state = .canceling then
      if st2.active = 0 then finalizeBatch "cancelled with errors" st2 else st2
    else st2

/-- `cancel_batch_translation` (`translation_manager.py:413-432`): first call
while RUNNING clears pending and drains (finalizing immediately as "cancelled"
when nothing is active); a second call while CANCELING escalates to STOPPED
and finalizes immediately as "stopped". -/
def cancelBatchTranslation (st : Sched) : Sched :=
  if st.state = .running then
    if ({ st with state := .canceling, pending := [] } : Sched).active = 0 then
      finalizeBatch "cancelled" { st with state := .canceling, pending := [] }
    else { st with state := .canceling, pending := [] }
  else if st.state = .canceling then
    finalizeBatch "stopped" { st with state := .stopped }
  else st

/-- `start_translation_batch` (`translation_manager.py:382-411`) for an
already prepared non-empty job list: only from IDLE; extends the pending
queue, sets the totals and enters RUNNING. -/
def startTranslationBatch (jobs : List Job) (st : Sched) : Sched :=
  if st.state ≠ .idle then st
  else if jobs = [] then st
  else
    { st with
      state := .running
      pending := st.pending ++ jobs
      total := jobs.length
      completed := 0 }

/-- The scheduler-visible effect of submitting the head-of-queue job in
`GeminiStrategy.dispatch` (`strategies.py:86-111`) and
`LiteLLMStrategy._execute_dispatch` (`strategies.py:276-297`): on success the
job is popped and `active_translation_jobs` incremented; when
`create_runnable` / `thread_pool.start` raises (`exc = some e`), the `except`
branch pops the job and hands it to `_handle_job_failed` — which decrements
an `active` counter that was never incremented for this job. -/
def dispatchSubmit (exc : Option ErrClass) (st : Sched) : Sched :=
  match st.pending with
  | [] => st
  | job :: rest =>
    match exc with
    | none => { st with pending := rest, active := st.active + 1 }
    | some e => handleJobFailed job e { st with pending := rest }

/-- One asynchronous job outcome reported back to the scheduler. -/
inductive Outcome where
  | completed (job : Job) (translation : String)
  | failed (job : Job) (err : ErrClass)

/-- Deliver one outcome to the scheduler. -/
def applyOutcome (o : Outcome) (st : Sched) : Sched :=
  match o with
  | .completed j tr => handleJobCompleted j tr st
  | .failed j e => handleJobFailed j e st

/-- Deliver a sequence of outcomes in order. -/
def applyOutcomes : List Outcome → Sched → Sched
  | [], st => st
  | o :: os, st => applyOutcomes os (applyOutcome o st)

/-! ### Claim C1 -/

/-- A RUNNING scheduler holding one pending job, no active jobs, one total:
the conservation invariant `completed + active + pending = total` holds. -/
def c1State : Sched :=
  ⟨.running, [⟨"i1", "hello", "en", "fr"⟩], 0, 1, 0, [], [], []⟩

/-- Claim C1: the conservation invariant holds before the dispatch, but on the
dispatch path where starting the runnable raises an exception
(`strategies.py:102-111` and `strategies.py:294-297`), the `except` branch
pops the job and calls `_handle_job_failed`, which decrements
`active_translation_jobs` although the job was never counted active: the
counter goes to `-1`, the invariant sum drops to `total - 1`, the state stays
RUNNING and (with `active = -1`) the `active == 0` finalization checks can
never fire again. -/
theorem c1_dispatch_exception_breaks_conservation :
    ((c1State.completed : ℤ) + c1State.active + c1State.pending.length
        = (c1State.total : ℤ)) ∧
    (dispatchSubmit (some .generic) c1State).active = -1 ∧
    (dispatchSubmit (some .generic) c1State).pending = [] ∧
    (dispatchSubmit (some .generic) c1State).completed = 1 ∧
    (dispatchSubmit (some .generic) c1State).state = .running ∧
    (((dispatchSubmit (some .generic) c1State).completed : ℤ)
        + (dispatchSubmit (some .generic) c1State).active
        + (dispatchSubmit (some .generic) c1State).pending.length
      = ((dispatchSubmit (some .generic) c1State).total : ℤ) - 1) := by
  decide

/-! ### Claim C2 -/

/-- A RUNNING scheduler with two active jobs and an empty queue. -/
def c2State : Sched := ⟨.running, [], 2, 2, 0, [], [], []⟩

/-- Claim C2, counterexample: a Gemini quota failure (google-api
`ResourceExhausted` / genai `ClientError` with a 429 message) reported while
RUNNING is *not* re-appended to the pending queue and *does* increment
`completed_jobs_for_progress`, because `_handle_job_failed` classifies
retriability by `isinstance` against the litellm exception classes only. -/
theorem c2_counterexample :
    isRetriable .geminiQuota = false ∧
    (handleJobFailed ⟨"i1", "hello", "en", "fr"⟩ .geminiQuota c2State).pending = [] ∧
    (handleJobFailed ⟨"i1", "hello", "en", "fr"⟩ .geminiQuota c2State).completed = 1 ∧
    (handleJobFailed ⟨"i1", "hello", "en", "fr"⟩ .geminiQuota c2State).state
      = .running := by
  decide

/-- Claim C2 (amended): while RUNNING, a failed job is re-appended to the
pending queue (without touching `completed` or emitting progress) exactly when
the delivered exception is an instance of litellm `RateLimitError` or
`Timeout`; every other exception — including Gemini quota errors, which reach
the scheduler as google-api/genai exception instances — is terminal: the job
is not re-queued and a progress event with `completed + 1` is emitted. -/
theorem c2_retry_classification (st : Sched) (job : Job) (err : ErrClass)
    (hs : st.state = .running) :
    (isRetriable err = true ↔ (err = .litellmRateLimit ∨ err = .litellmTimeout)) ∧
    (isRetriable err = true →
        handleJobFailed job err st
          = { st with active := st.active - 1, pending := st.pending ++ [job] }) ∧
    (isRetriable err = false →
        (handleJobFailed job err st).pending = st.pending ∧
        (handleJobFailed job err st).progressEvents
          = st.progressEvents ++ [(st.completed + 1, st.total)]) := by
  refine ⟨?_, ?_, ?_⟩
  · cases err <;> simp [isRetriable]
  · intro hr
    unfold handleJobFailed
    rw [hs]
    simp [hr, finalizeBatch]
  · intro hr
    unfold handleJobFailed
    rw [hs]
    by_cases hfin : st.pending = [] ∧ st.active - 1 = 0
    · simp [hr, hfin, finalizeBatch, resetBatchState, hfin.1]
    · simp [hr, hfin, finalizeBatch, resetBatchState]

/-- Witness for C2 (amended) at concrete inputs. -/
theorem c2_retry_classification_witness :
    c2State.state = .running ∧
    ((isRetriable .litellmRateLimit = true
        ↔ (ErrClass.litellmRateLimit = .litellmRateLimit ∨
           ErrClass.litellmRateLimit = .litellmTimeout)) ∧
      (isRetriable .litellmRateLimit = true →
          handleJobFailed ⟨"i1", "hello", "en", "fr"⟩ .litellmRateLimit c2State
            = ⟨.running, [⟨"i1", "hello", "en", "fr"⟩], 1, 2, 0, [], [], []⟩) ∧
      (isRetriable .litellmRateLimit = false →
          (handleJobFailed ⟨"i1", "hello", "en", "fr"⟩ .litellmRateLimit c2State).pending
            = c2State.pending ∧
          (handleJobFailed ⟨"i1", "hello", "en", "fr"⟩ .litellmRateLimit c2State).progressEvents
            = c2State.progressEvents ++ [(c2State.completed + 1, c2State.total)])) :=
  ⟨rfl, c2_retry_classification c2State ⟨"i1", "hello", "en", "fr"⟩
      .litellmRateLimit rfl⟩

/-! ### Cancellation lemmas shared by C6 -/

/-- One outcome delivered to a CANCELING scheduler: while other jobs remain
active it only decrements the active counter; the outcome of the last active
job finalizes the batch as "cancelled" / "cancelled with errors". -/
theorem applyOutcome_canceling_step (o : Outcome) (st : Sched)
    (hs : st.state = .canceling) :
    (st.active - 1 ≠ 0 →
      (applyOutcome o st).state = .canceling ∧
      (applyOutcome o st).active = st.active - 1 ∧
      (applyOutcome o st).finishedEvents = st.finishedEvents ∧
      (applyOutcome o st).total = st.total ∧
      (applyOutcome o st).pending = st.pending) ∧
    (st.active - 1 = 0 →
      (applyOutcome o st).state = .idle ∧
      ((applyOutcome o st).finishedEvents = st.finishedEvents ++ ["cancelled"] ∨
        (applyOutcome o st).finishedEvents
          = st.finishedEvents ++ ["cancelled with errors"])) := by
  constructor
  · intro hne
    cases o with
    | completed j tr =>
        unfold applyOutcome handleJobCompleted
        rw [hs]
        simp [hne]
    | failed j e =>
        unfold applyOutcome handleJobFailed
        rw [hs]
        simp [hne]
  · intro hz
    cases o with
    | completed j tr =>
        unfold applyOutcome handleJobCompleted
        rw [hs]
        simp [hz, finalizeBatch, resetBatchState]
    | failed j e =>
        unfold applyOutcome handleJobFailed
        rw [hs]
        simp [hz, finalizeBatch, resetBatchState]

/-- Draining: fewer outcomes than active jobs never finalize a CANCELING
batch. -/
theorem applyOutcomes_canceling_drain (os : List Outcome) :
    ∀ (st : Sched) (k : ℕ), st.state = .canceling → st.active = (k : ℤ) →
    os.length < k →
    (applyOutcomes os st).state = .canceling ∧
    (applyOutcomes os st).active = (k : ℤ) - os.length ∧
    (applyOutcomes os st).finishedEvents = st.finishedEvents ∧
    (applyOutcomes os st).total = st.total ∧
    (applyOutcomes os st).pending = st.pending := by
  induction os with
  | nil =>
      intro st k hs ha _
      simp [applyOutcomes, hs, ha]
  | cons o os ih =>
      intro st k hs ha hlen
      have hlen2 : os.length + 1 < k := by
        simpa [List.length_cons] using hlen
      have hk2 : 2 ≤ k := by omega
      have hne : st.active - 1 ≠ 0 := by
        rw [ha]
        intro h0
        omega
      obtain ⟨h1, h2, h3, h4, h5⟩ := (applyOutcome_canceling_step o st hs).1 hne
      have ha' : (applyOutcome o st).active = ((k - 1 : ℕ) : ℤ) := by
        rw [h2, ha]
        omega
      have hlen' : os.length < k - 1 := by omega
      obtain ⟨g1, g2, g3, g4, g5⟩ := ih (applyOutcome o st) (k - 1) h1 ha' hlen'
      refine ⟨g1, ?_, g3.trans h3, g4.trans h4, g5.trans h5⟩
      have hrw : (applyOutcomes (o :: os) st).active
          = (applyOutcomes os (applyOutcome o st)).active := rfl
      rw [hrw, g2]
      simp only [List.length_cons]
      omega

/-! ### Claim C6 -/

/-- Claim C6: for a RUNNING batch with `k` active jobs, after the first
`cancel_batch_translation` call the pending queue is empty; if `k = 0` the
batch finalizes immediately with reason "cancelled"; with fewer than `k`
reported outcomes the batch has not finalized (no `batch_finished` emission,
counters not reset — the state is still CANCELING and `total` unchanged); the
`k`-th outcome finalizes it. -/
theorem c6_cancellation_draining (st : Sched) (k : ℕ) (os : List Outcome)
    (hs : st.state = .running) (ha : st.active = (k : ℤ)) :
    (cancelBatchTranslation st).pending = [] ∧
    (k = 0 → (cancelBatchTranslation st).state = .idle ∧
        (cancelBatchTranslation st).finishedEvents
          = st.finishedEvents ++ ["cancelled"]) ∧
    (os.length < k →
        (applyOutcomes os (cancelBatchTranslation st)).state = .canceling ∧
        (applyOutcomes os (cancelBatchTranslation st)).finishedEvents
          = st.finishedEvents ∧
        (applyOutcomes os (cancelBatchTranslation st)).total = st.total ∧
        (applyOutcomes os (cancelBatchTranslation st)).pending = []) ∧
    (os.length + 1 = k → ∀ o : Outcome,
        (applyOutcome o (applyOutcomes os (cancelBatchTranslation st))).state
          = .idle ∧
        ((applyOutcome o (applyOutcomes os (cancelBatchTranslation st))).finishedEvents
            = st.finishedEvents ++ ["cancelled"] ∨
          (applyOutcome o (applyOutcomes os (cancelBatchTranslation st))).finishedEvents
            = st.finishedEvents ++ ["cancelled with errors"])) := by
  by_cases hk : k = 0
  · subst hk
    have hz : st.active = 0 := by rw [ha]; rfl
    have hc : cancelBatchTranslation st
        = finalizeBatch "cancelled" { st with state := .canceling, pending := [] } := by
      unfold cancelBatchTranslation
      rw [hs]
      simp [hz]
    refine ⟨?_, fun _ => ⟨?_, ?_⟩, fun hlt => absurd hlt (by omega), fun heq => ?_⟩
    · rw [hc]; simp [finalizeBatch, resetBatchState]
    · rw [hc]; simp [finalizeBatch, resetBatchState]
    · rw [hc]; simp [finalizeBatch, resetBatchState]
    · omega
  · have hc : cancelBatchTranslation st
        = { st with state := .canceling, pending := [] } := by
      unfold cancelBatchTranslation
      rw [hs]
      have : ({ st with state := SchedState.canceling, pending := ([] : List Job) }
          : Sched).active ≠ 0 := by
        show st.active ≠ 0
        rw [ha]
        exact_mod_cast hk
      simp [this]
    have hcs : (cancelBatchTranslation st).state = .canceling := by rw [hc]
    have hca : (cancelBatchTranslation st).active = (k : ℤ) := by rw [hc]; exact ha
    refine ⟨by rw [hc], fun h0 => absurd h0 hk, fun hlt => ?_, fun heq o => ?_⟩
    · obtain ⟨g1, g2, g3, g4, g5⟩ :=
        applyOutcomes_canceling_drain os (cancelBatchTranslation st) k hcs hca hlt
      exact ⟨g1, by rw [g3, hc], by rw [g4, hc], by rw [g5, hc]⟩
    · by_cases hos : os.length = 0
      · have hk1 : k = 1 := by omega
        have hz : (applyOutcomes os (cancelBatchTranslation st))
            = cancelBatchTranslation st := by
          cases os with
          | nil => rfl
          | cons a b => simp [List.length_cons] at hos
        rw [hz]
        have hzz : (cancelBatchTranslation st).active - 1 = 0 := by
          rw [hca, hk1]
          rfl
        obtain ⟨w1, w2⟩ :=
          (applyOutcome_canceling_step o (cancelBatchTranslation st) hcs).2 hzz
        refine ⟨w1, ?_⟩
        have hfe : (cancelBatchTranslation st).finishedEvents = st.finishedEvents := by
          rw [hc]
        rw [hfe] at w2
        exact w2
      · have hlt : os.length < k := by omega
        obtain ⟨g1, g2, g3, g4, g5⟩ :=
          applyOutcomes_canceling_drain os (cancelBatchTranslation st) k hcs hca hlt
        have hz : (applyOutcomes os (cancelBatchTranslation st)).active - 1 = 0 := by
          rw [g2]
          have : (os.length : ℤ) + 1 = (k : ℤ) := by exact_mod_cast heq
          omega
        obtain ⟨w1, w2⟩ :=
          (applyOutcome_canceling_step o (applyOutcomes os (cancelBatchTranslation st))
            g1).2 hz
        refine ⟨w1, ?_⟩
        have hfe : (cancelBatchTranslation st).finishedEvents = st.finishedEvents := by
          rw [hc]
        rw [g3, hfe] at w2
        exact w2

/-- A RUNNING scheduler with one pending and two active jobs, used to witness
C6. -/
def c6State : Sched := ⟨.running, [⟨"i1", "a", "en", "fr"⟩], 2, 3, 1, [], [], []⟩

/-- A single delivered outcome, fewer than the two active jobs of `c6State`. -/
def c6Outcomes : List Outcome := [.failed ⟨"i1", "a", "en", "fr"⟩ .generic]

/-- Witness for C6 at concrete inputs: two active jobs, one delivered outcome
does not finalize. -/
theorem c6_cancellation_draining_witness :
    c6State.state = .running ∧
    c6State.active = ((2 : ℕ) : ℤ) ∧
    ((cancelBatchTranslation c6State).pending = [] ∧
      ((2 : ℕ) = 0 → (cancelBatchTranslation c6State).state = .idle ∧
          (cancelBatchTranslation c6State).finishedEvents
            = c6State.finishedEvents ++ ["cancelled"]) ∧
      (c6Outcomes.length < 2 →
          (applyOutcomes c6Outcomes (cancelBatchTranslation c6State)).state
            = .canceling ∧
          (applyOutcomes c6Outcomes (cancelBatchTranslation c6State)).finishedEvents
            = c6State.finishedEvents ∧
          (applyOutcomes c6Outcomes (cancelBatchTranslation c6State)).total
            = c6State.total ∧
          (applyOutcomes c6Outcomes (cancelBatchTranslation c6State)).pending = []) ∧
      (c6Outcomes.length + 1 = 2 → ∀ o : Outcome,
          (applyOutcome o
              (applyOutcomes c6Outcomes (cancelBatchTranslation c6State))).state
            = .idle ∧
          ((applyOutcome o
              (applyOutcomes c6Outcomes (cancelBatchTranslation c6State))).finishedEvents
              = c6State.finishedEvents ++ ["cancelled"] ∨
            (applyOutcome o
              (applyOutcomes c6Outcomes (cancelBatchTranslation c6State))).finishedEvents
              = c6State.finishedEvents ++ ["cancelled with errors"]))) :=
  ⟨rfl, by decide, c6_cancellation_draining c6State 2 c6Outcomes rfl (by decide)⟩

/-! ### Claim C7 -/

/-- Claim C7: a second `cancel_batch_translation` call while CANCELING
escalates to STOPPED and finalizes immediately with reason "stopped"; from
then on every `_handle_job_completed` / `_handle_job_failed` delivery is a
complete no-op — the state (hence all progress counters, the cache-write log,
the progress-event log and the `batch_finished` log) is unchanged. -/
theorem c7_hard_cancel_finality (st : Sched) (hs : st.state = .canceling) :
    (cancelBatchTranslation st).state = .idle ∧
    (cancelBatchTranslation st).finishedEvents = st.finishedEvents ++ ["stopped"] ∧
    (∀ o : Outcome,
        applyOutcome o (cancelBatchTranslation st) = cancelBatchTranslation st) ∧
    (∀ os : List Outcome,
        applyOutcomes os (cancelBatchTranslation st) = cancelBatchTranslation st) := by
  have hc : cancelBatchTranslation st
      = finalizeBatch "stopped" { st with state := .stopped } := by
    unfold cancelBatchTranslation
    rw [hs]
    simp
  have hidle : (cancelBatchTranslation st).state = .idle := by
    rw [hc]
    simp [finalizeBatch, resetBatchState]
  have hnoop : ∀ o : Outcome,
      applyOutcome o (cancelBatchTranslation st) = cancelBatchTranslation st := by
    intro o
    cases o with
    | completed j tr =>
        unfold applyOutcome handleJobCompleted
        rw [hidle]
        simp
    | failed j e =>
        unfold applyOutcome handleJobFailed
        rw [hidle]
        simp
  refine ⟨hidle, ?_, hnoop, ?_⟩
  · rw [hc]
    simp [finalizeBatch, resetBatchState]
  · intro os
    induction os with
    | nil => rfl
    | cons o os ih =>
        show applyOutcomes os (applyOutcome o (cancelBatchTranslation st))
          = cancelBatchTranslation st
        rw [hnoop o, ih]

/-- Witness for C7 at a concrete CANCELING state. -/
theorem c7_hard_cancel_finality_witness :
    (⟨.canceling, [], 3, 5, 2, ["x"], [], []⟩ : Sched).state = .canceling ∧
    ((cancelBatchTranslation ⟨.canceling, [], 3, 5, 2, ["x"], [], []⟩).state = .idle ∧
      (cancelBatchTranslation ⟨.canceling, [], 3, 5, 2, ["x"], [], []⟩).finishedEvents
        = ["x"] ++ ["stopped"] ∧
      (∀ o : Outcome,
          applyOutcome o (cancelBatchTranslation ⟨.canceling, [], 3, 5, 2, ["x"], [], []⟩)
            = cancelBatchTranslation ⟨.canceling, [], 3, 5, 2, ["x"], [], []⟩) ∧
      (∀ os : List Outcome,
          applyOutcomes os
              (cancelBatchTranslation ⟨.canceling, [], 3, 5, 2, ["x"], [], []⟩)
            = cancelBatchTranslation ⟨.canceling, [], 3, 5, 2, ["x"], [], []⟩)) :=
  ⟨rfl, c7_hard_cancel_finality ⟨.canceling, [], 3, 5, 2, ["x"], [], []⟩ rfl⟩

/-! ## `strategies.py` — `GeminiStrategy` key rotation (claims C8 and C10) -/

/-- `settings.RPM_COOLDOWN_SECONDS` (`settings.py:20`). -/
def RPM_COOLDOWN_SECONDS : ℚ := 61

/-- `_cull_and_count_requests(deque, window_seconds)` (`strategies.py:30-39`):
pop entries older than `now - window_seconds` from the front, return the
remaining count.  The timestamps are appended in monotonic order, so the
front-only culling is a `dropWhile`. -/
def cullAndCountRequests (timestamps : List ℚ) (windowSeconds : ℚ) (now : ℚ) : ℕ :=
  (timestamps.dropWhile (fun t => decide (t < now - windowSeconds))).length

/-- The fields of `GeminiStrategy` (plus the settings entries it reads) that
the key-selection algorithm uses.  The cooldown dict
`api_key_cooldown_end_times` is threaded separately through the scan because
the scan mutates it in place. -/
structure GeminiState where
  apiKeys : List String
  currentApiKeyIndex : ℕ
  cooldownEnd : List (String × ℚ)
  timestamps : List (String × List ℚ)
  discoveredRpmLimits : List (String × ℕ)
  rpmLimitSetting : ℕ
  geminiModel : String
deriving DecidableEq, Repr

/-- `cooldown_end = self.api_key_cooldown_end_times.get(cand_key);
if cooldown_end and cooldown_end > now` (`strategies.py:72-73`): the entry
must exist, be truthy (non-zero) and lie in the future. -/
def cooldownSkip (cd : List (String × ℚ)) (key : String) (now : ℚ) : Bool :=
  match alookup cd key with
  | none => false
  | some c => decide (c ≠ 0 ∧ now < c)

/-- `_get_effective_rpm_limit_for_model` (`strategies.py:222-226`): the
runtime-discovered per-model limit takes precedence over the configured
`rpm_limit` setting (itself already defaulted). -/
def effectiveRpmLimitForModel (st : GeminiState) (modelName : String) : ℕ :=
  (alookup st.discoveredRpmLimits modelName).getD st.rpmLimitSetting

/-- `_get_current_rpm_for_key` (`strategies.py:233-235`). -/
def currentRpmForKey (st : GeminiState) (key : String) (now : ℚ) : ℕ :=
  match alookup st.timestamps key with
  | none => 0
  | some ts => cullAndCountRequests ts 60 now

/-- `_is_rpm_limit_reached_for_key` (`strategies.py:237-240`), for the
currently selected `gemini_model`. -/
def isRpmLimitReachedForKey (st : GeminiState) (key : String) (now : ℚ) : Bool :=
  decide (effectiveRpmLimitForModel st st.geminiModel ≤ currentRpmForKey st key now)

/-- `api_keys[i]` for the scanned index (indices produced by the rotation are
always in range). -/
def keyAt (st : GeminiState) (i : ℕ) : String :=
  st.apiKeys.getD i ""

/-- The scan loop of `GeminiStrategy.dispatch` (`strategies.py:69-82`) over a
list of candidate indices: skip a key in an active cooldown window; a key at
its RPM limit is stamped with `now + RPM_COOLDOWN_SECONDS` in the cooldown
dict and skipped; the first remaining key wins. -/
def scanKeys (st : GeminiState) (now : ℚ) (cd : List (String × ℚ)) :
    List ℕ → List (String × ℚ) × Option ℕ
  | [] => (cd, none)
  | i :: rest =>
    if cooldownSkip cd (keyAt st i) now then scanKeys st now cd rest
    else if isRpmLimitReachedForKey st (keyAt st i) now then
      scanKeys st now (ainsert cd (keyAt st i) (now + RPM_COOLDOWN_SECONDS)) rest
    else (cd, some i)

/-- `(start_idx_rot + i) % num_k` for `i in range(num_k)`
(`strategies.py:68-70`). -/
def rotationOrder (startIdx numK : ℕ) : List ℕ :=
  (List.range numK).map (fun i => (startIdx + i) % numK)

/-- The wait-time list of the no-eligible-key branch (`strategies.py:115-121`):
for every key, `remaining = cooldownEnd.get(k, 0) - now`, kept when
positive. -/
def remainingCooldownWaits (apiKeys : List String) (cd : List (String × ℚ))
    (now : ℚ) : List ℚ :=
  apiKeys.filterMap (fun k =>
    if 0 < (alookup cd k).getD 0 - now then some ((alookup cd k).getD 0 - now)
    else none)

/-- `int(min(wait_times) * 1000) + 50`, or the fixed `1000` ms fallback
(`strategies.py:123-126`); `int()` on a positive float truncates, i.e.
floors. -/
def geminiWaitDelayMs (apiKeys : List String) (cd : List (String × ℚ))
    (now : ℚ) : ℤ :=
  match remainingCooldownWaits apiKeys cd now with
  | [] => 1000
  | t :: ts => Rat.floor ((ts.foldl min t) * 1000) + 50

/-- Outcome of the key-selection part of `GeminiStrategy.dispatch`. -/
inductive GeminiDispatchResult where
  | noKeys
  | selected (keyIdx : ℕ) (key : String)
  | wait (delayMs : ℤ)
deriving DecidableEq, Repr

/-- The key-selection part of `GeminiStrategy.dispatch` (`strategies.py:59-131`):
empty key list fails the batch; otherwise scan the rotation order; on a truthy
winner update the persisted rotation index to `(winner + 1) % N`; otherwise
(also for a falsy empty-string "winner", which fails the `if key_to_use:`
test) arm the smart-wait delay.  The job-submission part that follows a
selection is `dispatchSubmit`. -/
def geminiDispatchSelect (st : GeminiState) (now : ℚ) :
    GeminiState × GeminiDispatchResult :=
  if st.apiKeys = [] then (st, .noKeys)
  else
    match (scanKeys st now st.cooldownEnd
        (rotationOrder st.currentApiKeyIndex st.apiKeys.length)).2 with
    | some i =>
        if keyAt st i ≠ "" then
          ({ st with
              cooldownEnd := (scanKeys st now st.cooldownEnd
                (rotationOrder st.currentApiKeyIndex st.apiKeys.length)).1
              currentApiKeyIndex := (i + 1) % st.apiKeys.length },
            .selected i (keyAt st i))
        else
          ({ st with
              cooldownEnd := (scanKeys st now st.cooldownEnd
                (rotationOrder st.currentApiKeyIndex st.apiKeys.length)).1 },
            .wait (geminiWaitDelayMs st.apiKeys
              (scanKeys st now st.cooldownEnd
                (rotationOrder st.currentApiKeyIndex st.apiKeys.length)).1 now))
    | none =>
        ({ st with
            cooldownEnd := (scanKeys st now st.cooldownEnd
              (rotationOrder st.currentApiKeyIndex st.apiKeys.length)).1 },
          .wait (geminiWaitDelayMs st.apiKeys
            (scanKeys st now st.cooldownEnd
              (rotationOrder st.currentApiKeyIndex st.apiKeys.length)).1 now))

/-- A key is eligible for dispatch w.r.t. a cooldown dict: neither in an
active cooldown window nor at its effective RPM limit. -/
def keyEligible (st : GeminiState) (cd : List (String × ℚ)) (now : ℚ)
    (key : String) : Bool :=
  !cooldownSkip cd key now && !isRpmLimitReachedForKey st key now

/-- `cooldownSkip` only looks at the key's own entry. -/
theorem cooldownSkip_congr (cd cd' : List (String × ℚ)) (k : String) (now : ℚ)
    (h : alookup cd k = alookup cd' k) :
    cooldownSkip cd k now = cooldownSkip cd' k now := by
  unfold cooldownSkip
  rw [h]

/-- The scan loop implements a first-match search: relative to any dict `cd0`
that agrees with the running dict `cd` on every key that is not RPM-limited
(the scan stamps only RPM-limited keys), the selected index is the first index
of the candidate list whose key is eligible w.r.t. `cd0`. -/
theorem scanKeys_find (st : GeminiState) (now : ℚ) (cd0 : List (String × ℚ)) :
    ∀ (idxs : List ℕ) (cd : List (String × ℚ)),
      (∀ k, isRpmLimitReachedForKey st k now = false →
          alookup cd k = alookup cd0 k) →
      (scanKeys st now cd idxs).2
        = idxs.find? (fun i => keyEligible st cd0 now (keyAt st i)) := by
  intro idxs
  induction idxs with
  | nil => intro cd _; rfl
  | cons i rest ih =>
      intro cd hP
      by_cases hc : cooldownSkip cd (keyAt st i) now = true
      · have hel : keyEligible st cd0 now (keyAt st i) = false := by
          by_cases hr : isRpmLimitReachedForKey st (keyAt st i) now = true
          · simp [keyEligible, hr]
          · have hrf : isRpmLimitReachedForKey st (keyAt st i) now = false := by
              simpa using hr
            have hc0 : cooldownSkip cd0 (keyAt st i) now = true := by
              rw [← cooldownSkip_congr cd cd0 (keyAt st i) now (hP _ hrf)]
              exact hc
            simp [keyEligible, hc0]
        have hstep : scanKeys st now cd (i :: rest) = scanKeys st now cd rest := by
          simp [scanKeys, hc]
        rw [hstep, ih cd hP, List.find?_cons_of_neg]
        simp [hel]
      · have hcf : cooldownSkip cd (keyAt st i) now = false := by simpa using hc
        by_cases hr : isRpmLimitReachedForKey st (keyAt st i) now = true
        · have hel : keyEligible st cd0 now (keyAt st i) = false := by
            simp [keyEligible, hr]
          have hstep : scanKeys st now cd (i :: rest)
              = scanKeys st now
                  (ainsert cd (keyAt st i) (now + RPM_COOLDOWN_SECONDS)) rest := by
            simp [scanKeys, hcf, hr]
          rw [hstep, ih _ ?_, List.find?_cons_of_neg]
          · simp [hel]
          · intro k hk
            have hkne : k ≠ keyAt st i := by
              intro he
              rw [he, hr] at hk
              cases hk
            rw [alookup_ainsert_ne cd (keyAt st i) k _ hkne]
            exact hP k hk
        · have hrf : isRpmLimitReachedForKey st (keyAt st i) now = false := by
            simpa using hr
          have hc0 : cooldownSkip cd0 (keyAt st i) now = false := by
            rw [← cooldownSkip_congr cd cd0 (keyAt st i) now (hP _ hrf)]
            exact hcf
          have hel : keyEligible st cd0 now (keyAt st i) = true := by
            simp [keyEligible, hc0, hrf]
          have hstep : scanKeys st now cd (i :: rest) = (cd, some i) := by
            simp [scanKeys, hcf, hrf]
          rw [hstep, List.find?_cons_of_pos]
          simp [hel]

/-- A `now + RPM_COOLDOWN_SECONDS` stamp survives the rest of the scan (the
scan only writes this very value). -/
theorem scanKeys_stamp_persists (st : GeminiState) (now : ℚ) :
    ∀ (idxs : List ℕ) (cd : List (String × ℚ)) (k : String),
      alookup cd k = some (now + RPM_COOLDOWN_SECONDS) →
      alookup (scanKeys st now cd idxs).1 k
        = some (now + RPM_COOLDOWN_SECONDS) := by
  intro idxs
  induction idxs with
  | nil => intro cd k h; exact h
  | cons i rest ih =>
      intro cd k h
      by_cases hc : cooldownSkip cd (keyAt st i) now = true
      · have hstep : scanKeys st now cd (i :: rest) = scanKeys st now cd rest := by
          simp [scanKeys, hc]
        rw [hstep]
        exact ih cd k h
      · have hcf : cooldownSkip cd (keyAt st i) now = false := by simpa using hc
        by_cases hr : isRpmLimitReachedForKey st (keyAt st i) now = true
        · have hstep : scanKeys st now cd (i :: rest)
              = scanKeys st now
                  (ainsert cd (keyAt st i) (now + RPM_COOLDOWN_SECONDS)) rest := by
            simp [scanKeys, hcf, hr]
          rw [hstep]
          apply ih
          by_cases hk : k = keyAt st i
          · rw [hk]
            exact alookup_ainsert_self cd (keyAt st i) _
          · rw [alookup_ainsert_ne cd (keyAt st i) k _ hk]
            exact h
        · have hrf : isRpmLimitReachedForKey st (keyAt st i) now = false := by
            simpa using hr
          have hstep : scanKeys st now cd (i :: rest) = (cd, some i) := by
            simp [scanKeys, hcf, hrf]
          rw [hstep]
          exact h

/-- When the scan selects nothing, every examined key that was not in cooldown
at scan entry but was RPM-limited carries the stamp
`now + RPM_COOLDOWN_SECONDS` in the final cooldown dict. -/
theorem scanKeys_stamps (st : GeminiState) (now : ℚ) :
    ∀ (idxs : List ℕ) (cd : List (String × ℚ)),
      (scanKeys st now cd idxs).2 = none →
      ∀ i ∈ idxs, cooldownSkip cd (keyAt st i) now = false →
        isRpmLimitReachedForKey st (keyAt st i) now = true →
        alookup (scanKeys st now cd idxs).1 (keyAt st i)
          = some (now + RPM_COOLDOWN_SECONDS) := by
  intro idxs
  induction idxs with
  | nil => intro cd _ i hi; cases hi
  | cons j rest ih =>
      intro cd hnone i hi hcool hrpm
      by_cases hc : cooldownSkip cd (keyAt st j) now = true
      · have hstep : scanKeys st now cd (j :: rest) = scanKeys st now cd rest := by
          simp [scanKeys, hc]
        rw [hstep] at hnone ⊢
        rcases List.mem_cons.mp hi with hij | hir
        · rw [hij] at hcool
          rw [hcool] at hc
          cases hc
        · exact ih cd hnone i hir hcool hrpm
      · have hcf : cooldownSkip cd (keyAt st j) now = false := by simpa using hc
        by_cases hr : isRpmLimitReachedForKey st (keyAt st j) now = true
        · have hstep : scanKeys st now cd (j :: rest)
              = scanKeys st now
                  (ainsert cd (keyAt st j) (now + RPM_COOLDOWN_SECONDS)) rest := by
            simp [scanKeys, hcf, hr]
          rw [hstep] at hnone ⊢
          by_cases hkk : keyAt st i = keyAt st j
          · apply scanKeys_stamp_persists
            rw [hkk]
            exact alookup_ainsert_self cd (keyAt st j) _
          · rcases List.mem_cons.mp hi with hij | hir
            · exact absurd (congrArg (keyAt st) hij) hkk
            · refine ih _ hnone i hir ?_ hrpm
              rw [← hcool]
              exact cooldownSkip_congr _ _ _ _
                (alookup_ainsert_ne cd (keyAt st j) (keyAt st i) _ hkk)
        · have hrf : isRpmLimitReachedForKey st (keyAt st j) now = false := by
            simpa using hr
          have hstep : scanKeys st now cd (j :: rest) = (cd, some j) := by
            simp [scanKeys, hcf, hrf]
          rw [hstep] at hnone
          cases hnone

/-- Elements of the rotation order are valid indices. -/
theorem rotationOrder_mem_lt (startIdx numK : ℕ) (h : 0 < numK) :
    ∀ i ∈ rotationOrder startIdx numK, i < numK := by
  intro i hi
  simp only [rotationOrder, List.mem_map, List.mem_range] at hi
  obtain ⟨j, _, rfl⟩ := hi
  exact Nat.mod_lt _ h

/-- `l.getD i ""` of an in-range index is an element of `l`. -/
theorem getD_mem : ∀ (l : List String) (i : ℕ), i < l.length → l.getD i "" ∈ l := by
  intro l
  induction l with
  | nil => intro i hi; cases hi
  | cons a tl ih =>
      intro i hi
      cases i with
      | zero => exact List.mem_cons_self a tl
      | succ n =>
          exact List.mem_cons_of_mem a
            (ih n (by simpa [List.length_cons, Nat.succ_lt_succ_iff] using hi))

/-! ### Claim C8 -/

/-- Claim C8: the `dispatch` scan starts at the persisted rotation index,
examines up to `N` keys in round-robin order, and skips a key exactly when it
is in an active cooldown window or its per-minute request count has reached
the effective RPM limit of the selected model (discovered limit over
configured one): the selected index is the *first* index of the rotation
order whose key is eligible, and then the persisted index becomes
`(winner + 1) % N`; when no key is eligible the armed retry delay is
`int(min remaining cooldown * 1000) + 50` ms over the post-scan cooldown
dict, or the fixed 1000 ms fallback when no key has remaining cooldown. -/
theorem c8_gemini_key_rotation (st : GeminiState) (now : ℚ)
    (hne : st.apiKeys ≠ []) (hkeys : ∀ k ∈ st.apiKeys, k ≠ "") :
    (∀ i, (rotationOrder st.currentApiKeyIndex st.apiKeys.length).find?
          (fun j => keyEligible st st.cooldownEnd now (keyAt st j)) = some i →
        (geminiDispatchSelect st now).2 = .selected i (keyAt st i) ∧
        (geminiDispatchSelect st now).1.currentApiKeyIndex
          = (i + 1) % st.apiKeys.length) ∧
    ((rotationOrder st.currentApiKeyIndex st.apiKeys.length).find?
          (fun j => keyEligible st st.cooldownEnd now (keyAt st j)) = none →
        (geminiDispatchSelect st now).2
          = .wait (geminiWaitDelayMs st.apiKeys
              (geminiDispatchSelect st now).1.cooldownEnd now) ∧
        ((remainingCooldownWaits st.apiKeys
              (geminiDispatchSelect st now).1.cooldownEnd now = [] ∧
            geminiWaitDelayMs st.apiKeys
              (geminiDispatchSelect st now).1.cooldownEnd now = 1000) ∨
          (∃ t ts, remainingCooldownWaits st.apiKeys
                (geminiDispatchSelect st now).1.cooldownEnd now = t :: ts ∧
              geminiWaitDelayMs st.apiKeys
                  (geminiDispatchSelect st now).1.cooldownEnd now
                = Rat.floor ((ts.foldl min t) * 1000) + 50))) := by
  have hfind := scanKeys_find st now st.cooldownEnd
    (rotationOrder st.currentApiKeyIndex st.apiKeys.length) st.cooldownEnd
    (fun _ _ => rfl)
  constructor
  · intro i hi
    have h2 : (scanKeys st now st.cooldownEnd
        (rotationOrder st.currentApiKeyIndex st.apiKeys.length)).2 = some i := by
      rw [hfind, hi]
    have hmem : i ∈ rotationOrder st.currentApiKeyIndex st.apiKeys.length :=
      List.mem_of_find?_eq_some hi
    have hlen : 0 < st.apiKeys.length := List.length_pos.mpr hne
    have hlt : i < st.apiKeys.length :=
      rotationOrder_mem_lt st.currentApiKeyIndex st.apiKeys.length hlen i hmem
    have hkey : keyAt st i ≠ "" := hkeys _ (getD_mem st.apiKeys i hlt)
    unfold geminiDispatchSelect
    rw [if_neg hne, h2]
    simp [hkey]
  · intro hnone
    have h2 : (scanKeys st now st.cooldownEnd
        (rotationOrder st.currentApiKeyIndex st.apiKeys.length)).2 = none := by
      rw [hfind, hnone]
    unfold geminiDispatchSelect
    rw [if_neg hne, h2]
    refine ⟨rfl, ?_⟩
    rcases hwl : remainingCooldownWaits st.apiKeys
        (scanKeys st now st.cooldownEnd
          (rotationOrder st.currentApiKeyIndex st.apiKeys.length)).1 now with
      _ | ⟨t, ts⟩
    · exact Or.inl ⟨rfl, by simp [geminiWaitDelayMs, hwl]⟩
    · exact Or.inr ⟨t, ts, rfl, by simp [geminiWaitDelayMs, hwl]⟩

/-- A Gemini strategy state for the C8 witness: two non-empty keys, RPM limit
1, key "A" already used once inside the window — the scan skips "A"
(RPM-limited) and selects "B" at rotation position 1. -/
def c8St : GeminiState := ⟨["A", "B"], 0, [], [("A", [0])], [], 1, "m"⟩

/-- Witness for C8 at concrete inputs. -/
theorem c8_gemini_key_rotation_witness :
    c8St.apiKeys ≠ [] ∧
    (∀ k ∈ c8St.apiKeys, k ≠ "") ∧
    ((∀ i, (rotationOrder c8St.currentApiKeyIndex c8St.apiKeys.length).find?
          (fun j => keyEligible c8St c8St.cooldownEnd 0 (keyAt c8St j)) = some i →
        (geminiDispatchSelect c8St 0).2 = .selected i (keyAt c8St i) ∧
        (geminiDispatchSelect c8St 0).1.currentApiKeyIndex
          = (i + 1) % c8St.apiKeys.length) ∧
      ((rotationOrder c8St.currentApiKeyIndex c8St.apiKeys.length).find?
          (fun j => keyEligible c8St c8St.cooldownEnd 0 (keyAt c8St j)) = none →
        (geminiDispatchSelect c8St 0).2
          = .wait (geminiWaitDelayMs c8St.apiKeys
              (geminiDispatchSelect c8St 0).1.cooldownEnd 0) ∧
        ((remainingCooldownWaits c8St.apiKeys
              (geminiDispatchSelect c8St 0).1.cooldownEnd 0 = [] ∧
            geminiWaitDelayMs c8St.apiKeys
              (geminiDispatchSelect c8St 0).1.cooldownEnd 0 = 1000) ∨
          (∃ t ts, remainingCooldownWaits c8St.apiKeys
                (geminiDispatchSelect c8St 0).1.cooldownEnd 0 = t :: ts ∧
              geminiWaitDelayMs c8St.apiKeys
                  (geminiDispatchSelect c8St 0).1.cooldownEnd 0
                = Rat.floor ((ts.foldl min t) * 1000) + 50)))) :=
  ⟨by decide, by decide, c8_gemini_key_rotation c8St 0 (by decide) (by decide)⟩

/-! ### Claim C10 -/

/-- Claim C10: `dispatch` is not side-effect-free on merely scanned keys —
every examined key that is not in cooldown but has reached the effective RPM
limit gets its cooldown end stamped to `now + RPM_COOLDOWN_SECONDS`; hence
when no key is eligible, the wait computation sees at least one positive
remaining cooldown (so the armed delay is the min-cooldown form, not the
fallback), and such a key remains cooldown-skipped — independently of its
sliding rate window — at every instant before `now + RPM_COOLDOWN_SECONDS`. -/
theorem c10_scan_side_effects (st : GeminiState) (now now2 : ℚ) (i : ℕ)
    (rest : List ℕ)
    (hne : st.apiKeys ≠ [])
    (hi : i ∈ rotationOrder st.currentApiKeyIndex st.apiKeys.length)
    (hnone : (scanKeys st now st.cooldownEnd
        (rotationOrder st.currentApiKeyIndex st.apiKeys.length)).2 = none)
    (hc : cooldownSkip st.cooldownEnd (keyAt st i) now = false)
    (hr : isRpmLimitReachedForKey st (keyAt st i) now = true)
    (hnow : 0 ≤ now) (hnow2 : now2 < now + RPM_COOLDOWN_SECONDS) :
    alookup (geminiDispatchSelect st now).1.cooldownEnd (keyAt st i)
      = some (now + RPM_COOLDOWN_SECONDS) ∧
    (∃ t ts, remainingCooldownWaits st.apiKeys
          (geminiDispatchSelect st now).1.cooldownEnd now = t :: ts ∧
        (geminiDispatchSelect st now).2
          = .wait (Rat.floor ((ts.foldl min t) * 1000) + 50)) ∧
    cooldownSkip (geminiDispatchSelect st now).1.cooldownEnd (keyAt st i) now2
      = true ∧
    scanKeys st now2 (geminiDispatchSelect st now).1.cooldownEnd (i :: rest)
      = scanKeys st now2 (geminiDispatchSelect st now).1.cooldownEnd rest := by
  have hcd : (geminiDispatchSelect st now).1.cooldownEnd
      = (scanKeys st now st.cooldownEnd
          (rotationOrder st.currentApiKeyIndex st.apiKeys.length)).1 := by
    unfold geminiDispatchSelect
    rw [if_neg hne, hnone]
  have hstamp : alookup (geminiDispatchSelect st now).1.cooldownEnd (keyAt st i)
      = some (now + RPM_COOLDOWN_SECONDS) := by
    rw [hcd]
    exact scanKeys_stamps st now _ st.cooldownEnd hnone i hi hc hr
  have hpos : (0 : ℚ) < now + RPM_COOLDOWN_SECONDS := by
    unfold RPM_COOLDOWN_SECONDS
    linarith
  refine ⟨hstamp, ?_, ?_, ?_⟩
  · have hlen : 0 < st.apiKeys.length := List.length_pos.mpr hne
    have hlt : i < st.apiKeys.length :=
      rotationOrder_mem_lt st.currentApiKeyIndex st.apiKeys.length hlen i hi
    have hmem : keyAt st i ∈ st.apiKeys := getD_mem st.apiKeys i hlt
    have hwne : remainingCooldownWaits st.apiKeys
        (geminiDispatchSelect st now).1.cooldownEnd now ≠ [] := by
      intro hnil
      unfold remainingCooldownWaits at hnil
      rw [List.filterMap_eq_nil_iff] at hnil
      have hx := hnil (keyAt st i) hmem
      rw [hstamp] at hx
      simp only [Option.getD_some] at hx
      have hgt : 0 < now + RPM_COOLDOWN_SECONDS - now := by
        unfold RPM_COOLDOWN_SECONDS
        linarith
      rw [if_pos hgt] at hx
      cases hx
    obtain ⟨t, ts, hts⟩ := List.exists_cons_of_ne_nil hwne
    refine ⟨t, ts, hts, ?_⟩
    have hres : (geminiDispatchSelect st now).2
        = .wait (geminiWaitDelayMs st.apiKeys
            (scanKeys st now st.cooldownEnd
              (rotationOrder st.currentApiKeyIndex st.apiKeys.length)).1 now) := by
      unfold geminiDispatchSelect
      rw [if_neg hne, hnone]
    rw [hres, ← hcd]
    rw [show geminiWaitDelayMs st.apiKeys (geminiDispatchSelect st now).1.cooldownEnd now
          = Rat.floor ((ts.foldl min t) * 1000) + 50 from by
        unfold geminiWaitDelayMs
        rw [hts]]
  · unfold cooldownSkip
    rw [hstamp]
    simp [hpos.ne', hnow2]
  · have hsk : cooldownSkip (geminiDispatchSelect st now).1.cooldownEnd
        (keyAt st i) now2 = true := by
      unfold cooldownSkip
      rw [hstamp]
      simp [hpos.ne', hnow2]
    simp [scanKeys, hsk]

/-- A Gemini strategy state for the C10 witness: two keys, effective RPM limit
0, so both keys are RPM-limited with empty rate windows; the scan stamps both
and selects nothing. -/
def c10St : GeminiState := ⟨["A", "B"], 0, [], [], [], 0, "m"⟩

/-- Witness for C10 at concrete inputs (`now = 0`, `now2 = 60`, key index 0,
remaining candidate list `[1]`). -/
theorem c10_scan_side_effects_witness :
    c10St.apiKeys ≠ [] ∧
    0 ∈ rotationOrder c10St.currentApiKeyIndex c10St.apiKeys.length ∧
    (scanKeys c10St 0 c10St.cooldownEnd
        (rotationOrder c10St.currentApiKeyIndex c10St.apiKeys.length)).2 = none ∧
    cooldownSkip c10St.cooldownEnd (keyAt c10St 0) 0 = false ∧
    isRpmLimitReachedForKey c10St (keyAt c10St 0) 0 = true ∧
    (0 : ℚ) ≤ 0 ∧ (60 : ℚ) < 0 + RPM_COOLDOWN_SECONDS ∧
    (alookup (geminiDispatchSelect c10St 0).1.cooldownEnd (keyAt c10St 0)
        = some (0 + RPM_COOLDOWN_SECONDS) ∧
      (∃ t ts, remainingCooldownWaits c10St.apiKeys
            (geminiDispatchSelect c10St 0).1.cooldownEnd 0 = t :: ts ∧
          (geminiDispatchSelect c10St 0).2
            = .wait (Rat.floor ((ts.foldl min t) * 1000) + 50)) ∧
      cooldownSkip (geminiDispatchSelect c10St 0).1.cooldownEnd (keyAt c10St 0) 60
        = true ∧
      scanKeys c10St 60 (geminiDispatchSelect c10St 0).1.cooldownEnd (0 :: [1])
        = scanKeys c10St 60 (geminiDispatchSelect c10St 0).1.cooldownEnd [1]) :=
  ⟨by decide, by decide, by decide, by decide, by decide, by norm_num,
    by norm_num [RPM_COOLDOWN_SECONDS],
    c10_scan_side_effects c10St 0 60 0 [1] (by decide) (by decide) (by decide)
      (by decide) (by decide) (by norm_num)
      (by norm_num [RPM_COOLDOWN_SECONDS])⟩

/-! ## `strategies.py` — `LiteLLMStrategy` backoff (claim C9) -/

/-- `LiteLLMStrategy.on_job_failed` (`strategies.py:419-427`): only a
`litellm.RateLimitError` instance reacts — the multiplier becomes
`min(backoff_multiplier + 1.0, 10.0)`, and the scheduler's dispatch timer is
started with `int(1000 * multiplier)` milliseconds (truncation of a positive
float is the floor).  Returns the new multiplier and the timer duration
(`none` when the timer is not started). -/
def litellmOnJobFailed (err : ErrClass) (m : ℚ) : ℚ × Option ℤ :=
  if err = .litellmRateLimit then
    (min (m + 1) 10, some (Int.floor (1000 * min (m + 1) 10)))
  else (m, none)

/-- The backoff part of `LiteLLMStrategy.on_job_completed`
(`strategies.py:429-434`): `max(1.0, backoff_multiplier / 2.0)`. -/
def litellmOnJobCompleted (m : ℚ) : ℚ := max 1 (m / 2)

/-- One scheduler-reported outcome as seen by the backoff state. -/
inductive LlmOutcome where
  | rateLimitFail
  | completed
deriving DecidableEq, Repr

/-- Multiplier update of one outcome. -/
def stepBackoff : LlmOutcome → ℚ → ℚ
  | .rateLimitFail, m => (litellmOnJobFailed .litellmRateLimit m).1
  | .completed, m => litellmOnJobCompleted m

/-- Multiplier after a sequence of outcomes. -/
def runBackoff : List LlmOutcome → ℚ → ℚ
  | [], m => m
  | o :: os, m => runBackoff os (stepBackoff o m)

/-- The backoff multiplier stays within `[1, 10]` from any starting point in
that interval. -/
theorem runBackoff_bounds (os : List LlmOutcome) : ∀ m : ℚ, 1 ≤ m → m ≤ 10 →
    1 ≤ runBackoff os m ∧ runBackoff os m ≤ 10 := by
  induction os with
  | nil => intro m h1 h2; exact ⟨h1, h2⟩
  | cons o os ih =>
      intro m h1 h2
      have hstep : 1 ≤ stepBackoff o m ∧ stepBackoff o m ≤ 10 := by
        cases o with
        | rateLimitFail =>
            unfold stepBackoff litellmOnJobFailed
            simp only [if_pos rfl]
            constructor
            · exact le_min (by linarith) (by norm_num)
            · exact min_le_right _ _
        | completed =>
            unfold stepBackoff litellmOnJobCompleted
            constructor
            · exact le_max_left _ _
            · exact max_le (by norm_num) (by linarith)
      exact ih (stepBackoff o m) hstep.1 hstep.2

/-! ### Claim C9 -/

/-- Claim C9, counterexample: the rate-limit reaction is *additive*, not
exponential — starting from multiplier `1.0`, two consecutive rate-limit
failures give `2.0` then `3.0` (equal increments of `1.0`), and no growth
ratio `r > 1` can describe the update as `m ↦ r * m` below the cap (the first
step forces `r = 2`, but the second step yields `3`, not `4`). -/
theorem c9_counterexample :
    (litellmOnJobFailed .litellmRateLimit 1).1 = 2 ∧
    (litellmOnJobFailed .litellmRateLimit 2).1 = 3 ∧
    (litellmOnJobFailed .litellmRateLimit 2).1 - 2
      = (litellmOnJobFailed .litellmRateLimit 1).1 - 1 ∧
    ¬ (∃ r : ℚ, 1 < r ∧ ∀ m : ℚ, 1 ≤ m →
        (litellmOnJobFailed .litellmRateLimit m).1 ≤ 10 →
        (litellmOnJobFailed .litellmRateLimit m).1 = r * m) := by
  have hv1 : (litellmOnJobFailed .litellmRateLimit 1).1 = 2 := by
    unfold litellmOnJobFailed
    norm_num
  have hv2 : (litellmOnJobFailed .litellmRateLimit 2).1 = 3 := by
    unfold litellmOnJobFailed
    norm_num
  refine ⟨hv1, hv2, by rw [hv1, hv2]; norm_num, ?_⟩
  rintro ⟨r, _, hr⟩
  have e1 := hr 1 (by norm_num) (by rw [hv1]; norm_num)
  have e2 := hr 2 (by norm_num) (by rw [hv2]; norm_num)
  rw [hv1] at e1
  rw [hv2] at e2
  have : r = 2 := by linarith
  rw [this] at e2
  norm_num at e2

/-- Claim C9 (amended): each litellm rate-limit failure updates the multiplier
*additively* to `min(m + 1, 10)` — strictly increasing while below the cap
`10` — and starts the scheduler's dispatch timer for
`int(1000 * multiplier)` milliseconds (the updated multiplier); any other
failure leaves the multiplier alone and starts no timer; each completion
relaxes the multiplier to `max(1, m / 2)`, which never goes below `1` nor
above `m`; over every outcome sequence from the initial `1.0` the multiplier
stays within `[1, 10]`, and four consecutive successes from any reachable
multiplier restore `1.0`. -/
theorem c9_backoff_behavior (m : ℚ) (os : List LlmOutcome)
    (h1 : 1 ≤ m) (h2 : m ≤ 10) :
    (litellmOnJobFailed .litellmRateLimit m).1 = min (m + 1) 10 ∧
    (m < 10 → m < (litellmOnJobFailed .litellmRateLimit m).1) ∧
    (1 ≤ (litellmOnJobFailed .litellmRateLimit m).1 ∧
      (litellmOnJobFailed .litellmRateLimit m).1 ≤ 10) ∧
    (litellmOnJobFailed .litellmRateLimit m).2
      = some (Int.floor (1000 * (litellmOnJobFailed .litellmRateLimit m).1)) ∧
    (∀ e : ErrClass, e ≠ .litellmRateLimit → litellmOnJobFailed e m = (m, none)) ∧
    (litellmOnJobCompleted m = max 1 (m / 2) ∧
      1 ≤ litellmOnJobCompleted m ∧ litellmOnJobCompleted m ≤ m) ∧
    (1 ≤ runBackoff os 1 ∧ runBackoff os 1 ≤ 10) ∧
    runBackoff [.completed, .completed, .completed, .completed] m = 1 := by
  have hf1 : (litellmOnJobFailed .litellmRateLimit m).1 = min (m + 1) 10 := by
    unfold litellmOnJobFailed
    simp
  refine ⟨hf1, ?_, ?_, ?_, ?_, ?_, ?_, ?_⟩
  · intro hlt
    rw [hf1]
    exact lt_min (by linarith) hlt
  · rw [hf1]
    exact ⟨le_min (by linarith) (by norm_num), min_le_right _ _⟩
  · unfold litellmOnJobFailed
    simp
  · intro e he
    unfold litellmOnJobFailed
    simp [he]
  · refine ⟨rfl, le_max_left _ _, ?_⟩
    unfold litellmOnJobCompleted
    exact max_le h1 (by linarith)
  · exact runBackoff_bounds os 1 le_rfl (by norm_num)
  · show litellmOnJobCompleted (litellmOnJobCompleted
        (litellmOnJobCompleted (litellmOnJobCompleted m))) = 1
    have b1 : litellmOnJobCompleted m ≤ 5 :=
      max_le (by norm_num) (by linarith)
    have b2 : litellmOnJobCompleted (litellmOnJobCompleted m) ≤ 3 :=
      max_le (by norm_num) (by linarith)
    have b3 : litellmOnJobCompleted (litellmOnJobCompleted
        (litellmOnJobCompleted m)) ≤ 2 :=
      max_le (by norm_num) (by linarith)
    exact max_eq_left (by linarith)

/-- Witness for C9 (amended) at `m = 1` with a single rate-limit failure. -/
theorem c9_backoff_behavior_witness :
    (1 : ℚ) ≤ 1 ∧ (1 : ℚ) ≤ 10 ∧
    ((litellmOnJobFailed .litellmRateLimit 1).1 = min ((1 : ℚ) + 1) 10 ∧
      ((1 : ℚ) < 10 → (1 : ℚ) < (litellmOnJobFailed .litellmRateLimit 1).1) ∧
      (1 ≤ (litellmOnJobFailed .litellmRateLimit 1).1 ∧
        (litellmOnJobFailed .litellmRateLimit 1).1 ≤ 10) ∧
      (litellmOnJobFailed .litellmRateLimit 1).2
        = some (Int.floor (1000 * (litellmOnJobFailed .litellmRateLimit 1).1)) ∧
      (∀ e : ErrClass, e ≠ .litellmRateLimit →
          litellmOnJobFailed e 1 = (1, none)) ∧
      (litellmOnJobCompleted 1 = max 1 ((1 : ℚ) / 2) ∧
        1 ≤ litellmOnJobCompleted 1 ∧ litellmOnJobCompleted 1 ≤ 1) ∧
      (1 ≤ runBackoff [.rateLimitFail] 1 ∧ runBackoff [.rateLimitFail] 1 ≤ 10) ∧
      runBackoff [.completed, .completed, .completed, .completed] 1 = 1) :=
  ⟨by norm_num, by norm_num,
    c9_backoff_behavior 1 [.rateLimitFail] (by norm_num) (by norm_num)⟩

end OmniTrans
